import Mathlib

/-!
Verification of the batch ministry workflow
(`scripts/batch_ministry_workflow.py`, `library/organization_question.py`,
`library/organization_cyber_question.py`, `data/__init__.py`).

Strings are embedded as lists of Unicode code points (`PyStr`), so that the
Python string methods used by the code (`lower`, `upper`, `title`, `strip`,
`replace` on single characters) become plain functions on `List Nat`.
The external `robora` engine (QuestionSet expansion, orchestrator dispatch)
is modelled from the specification where noted.
-/

set_option autoImplicit false

/-- A Python string, as its list of Unicode code points. -/
abbrev PyStr := List Nat

/-- Code points of a Lean string literal, used for concrete inputs. -/
def pyOf (s : String) : PyStr := s.data.map Char.toNat

/-- `str.lower` on one code point (ASCII, as in the data handled by the code). -/
def pyLowerC (n : Nat) : Nat := if 65 ≤ n ∧ n ≤ 90 then n + 32 else n

/-- `str.upper` on one code point. -/
def pyUpperC (n : Nat) : Nat := if 97 ≤ n ∧ n ≤ 122 then n - 32 else n

/-- Python `str.isspace` for one code point (ASCII whitespace). -/
def pyIsSpace (n : Nat) : Bool := decide (n = 32 ∨ (9 ≤ n ∧ n ≤ 13))

/-- ASCII alphabetic test, the cased characters relevant to `str.title`. -/
def pyIsAlpha (n : Nat) : Bool := decide ((65 ≤ n ∧ n ≤ 90) ∨ (97 ≤ n ∧ n ≤ 122))

/-- `str.lower`. -/
def pyLower (s : PyStr) : PyStr := s.map pyLowerC

/-- `str.upper`. -/
def pyUpper (s : PyStr) : PyStr := s.map pyUpperC

/-- `str.strip()`: drop leading and trailing whitespace. -/
def pyStrip (s : PyStr) : PyStr :=
  ((s.dropWhile pyIsSpace).reverse.dropWhile pyIsSpace).reverse

/-- Helper for `str.title`: the Bool records whether the previous character
was alphabetic (in which case the current letter is lowercased, otherwise
uppercased). -/
def pyTitleAux : Bool → PyStr → PyStr
  | _, [] => []
  | prevAlpha, c :: cs =>
    (if prevAlpha then pyLowerC c else pyUpperC c) :: pyTitleAux (pyIsAlpha c) cs

/-- `str.title()`. -/
def pyTitle (s : PyStr) : PyStr := pyTitleAux false s

/-- `str.replace(a, b)` for single-character `a`, `b`. -/
def pyReplaceC (a b : Nat) (s : PyStr) : PyStr :=
  s.map (fun c => if c = a then b else c)

theorem pyUpperC_pyLowerC (n : Nat) : pyUpperC (pyLowerC n) = pyUpperC n := by
  simp only [pyUpperC, pyLowerC]
  split_ifs <;> omega

theorem pyUpperC_pyUpperC (n : Nat) : pyUpperC (pyUpperC n) = pyUpperC n := by
  simp only [pyUpperC]
  split_ifs <;> omega

theorem pyUpperC_eq_of_pyLowerC_eq {a b : Nat} (h : pyLowerC a = pyLowerC b) :
    pyUpperC a = pyUpperC b := by
  have ha := pyUpperC_pyLowerC a
  have hb := pyUpperC_pyLowerC b
  rw [← ha, ← hb, h]

theorem pyIsSpace_eq_of_pyLowerC_eq {a b : Nat} (h : pyLowerC a = pyLowerC b) :
    pyIsSpace a = pyIsSpace b := by
  simp only [pyLowerC] at h
  simp only [pyIsSpace, decide_eq_decide]
  split_ifs at h <;> omega

/-- `pyUpper` only depends on the case-folded string. -/
theorem pyUpper_eq_of_pyLower_eq {s t : PyStr} (h : pyLower s = pyLower t) :
    pyUpper s = pyUpper t := by
  unfold pyLower at h
  unfold pyUpper
  induction s generalizing t with
  | nil => cases t <;> simp_all
  | cons c cs ih =>
    cases t with
    | nil => simp_all
    | cons d ds =>
      simp only [List.map_cons, List.cons.injEq] at h ⊢
      exact ⟨pyUpperC_eq_of_pyLowerC_eq h.1, ih h.2⟩

/-- Upper-casing erases the effect of title-casing. -/
theorem pyUpper_pyTitleAux (b : Bool) (s : PyStr) :
    pyUpper (pyTitleAux b s) = pyUpper s := by
  unfold pyUpper
  induction s generalizing b with
  | nil => simp [pyTitleAux]
  | cons c cs ih =>
    simp only [pyTitleAux, List.map_cons, List.cons.injEq]
    refine ⟨?_, ih (pyIsAlpha c)⟩
    split
    · exact pyUpperC_pyLowerC c
    · exact pyUpperC_pyUpperC c

theorem pyUpper_pyTitle (s : PyStr) : pyUpper (pyTitle s) = pyUpper s :=
  pyUpper_pyTitleAux false s

/-! ## Data model: Question and QuestionSet

`Question`, `QuestionSet` and the expansion semantics live in the external
`robora` package, which is not part of this repository's sources; they are
modelled from the specification (spec §3, §4.1). -/

/-- Modelled from the spec: a Question is a template together with one
binding per placeholder and the expected response schema; its identity
(fingerprint) is the (template, bindings) pair. -/
structure Question where
  template : PyStr
  bindings : List (PyStr × PyStr)
  response_model : PyStr
deriving DecidableEq

/-- Modelled from the spec: a QuestionSet carries ordered named axes
(`word_sets`), the template, the response schema, and `max_questions`
(0 = unlimited). -/
structure QuestionSet where
  word_sets : List (PyStr × List PyStr)
  template : PyStr
  response_model : PyStr
  max_questions : Nat
deriving DecidableEq

/-- Modelled from the spec: `robora.QuestionSet`'s default question cap is
not in the repository sources; the workflow overwrites it with 0 before any
dispatch, so its initial value is irrelevant to every claim below. -/
def roboraDefaultMaxQuestions : Nat := 0

/-- Cartesian product of the axes, first axis varying slowest. -/
def axesProduct : List (List PyStr) → List (List PyStr)
  | [] => [[]]
  | axis :: rest => axis.flatMap (fun v => (axesProduct rest).map (fun vs => v :: vs))

/-- Modelled from the spec: expansion yields one Question per element of the
Cartesian product of the axes (a single axis degenerates to one Question per
element), truncated to `max_questions` unless that cap is 0. -/
def QuestionSet.expand (qs : QuestionSet) : List Question :=
  let names := qs.word_sets.map Prod.fst
  let combos := axesProduct (qs.word_sets.map Prod.snd)
  let all := combos.map (fun vs =>
    { template := qs.template, bindings := names.zip vs,
      response_model := qs.response_model : Question })
  if qs.max_questions = 0 then all else all.take qs.max_questions

/-! ## The two question libraries (`library/organization_question.py`,
`library/organization_cyber_question.py`) -/

namespace organization_question

/-- The stage-1 template string. -/
def template : PyStr :=
  pyOf "What is the top-level state Organ (i.e., ministry/department/agency) responsible for {domain} in {country}?"

/-- `organization_question.get_question_set`: upper-cases every domain and
country and builds the two axes `domain`, `country` in that order. -/
def get_question_set (domains countries : List PyStr) : QuestionSet :=
  { word_sets := [(pyOf "domain", domains.map pyUpper),
                  (pyOf "country", countries.map pyUpper)],
    template := template,
    response_model := pyOf "OrganizationModel",
    max_questions := roboraDefaultMaxQuestions }

end organization_question

namespace organization_cyber_question

/-- The stage-2 template string. -/
def template : PyStr :=
  pyOf "Is the {organization_country} responsible for cybersecurity?\n\nA ministry handles cybersecurity if it: Is explicitly mentioned in a national strategy/law/report as being responsible for cybersecurity policy, implementation, or technical coordination; Hosts a national CERT/CSIRT/CIRT; Leads or is a member of a cybersecurity committee, council, or working group; Oversees information security standards, network protection, or the like; Attends or participates in events, workshops, or press releases; or works with other countries or organizations on joint initiatives.\n"

/-- `f"{org} in {country}"`. -/
def orgInCountry (org country : PyStr) : PyStr := org ++ pyOf " in " ++ country

/-- `organization_cyber_question.get_question_set`: zips organizations with
countries positionally into the single axis `organization_country`. -/
def get_question_set (organizations countries : List PyStr) : QuestionSet :=
  { word_sets := [(pyOf "organization_country",
                   List.zipWith orgInCountry organizations countries)],
    template := template,
    response_model := pyOf "OrganizationCyberModel",
    max_questions := roboraDefaultMaxQuestions }

end organization_cyber_question

/-! ## MinistryWorkflow (`scripts/batch_ministry_workflow.py`) -/

namespace MinistryWorkflow

/-- `self.domain = domain.strip().title()`. -/
def domainAttr (domain : PyStr) : PyStr := pyTitle (pyStrip domain)

/-- `domain.lower().replace(" ", "_").replace("/", "_")`, the per-domain
output directory name (code points 32 = space, 47 = slash, 95 = underscore). -/
def dirName (domain : PyStr) : PyStr :=
  pyReplaceC 47 95 (pyReplaceC 32 95 (pyLower domain))

/-- `self.output_dir = output_dir / domain.lower()...`, a path as its list of
components. -/
def outputDir (base : List PyStr) (domain : PyStr) : List PyStr :=
  base ++ [dirName domain]

/-- Stage-1 store: `self.output_dir / "organization.db"`. -/
def step1DbPath (base : List PyStr) (domain : PyStr) : List PyStr :=
  outputDir base domain ++ [pyOf "organization.db"]

/-- Stage-2 store: `self.output_dir / "organization_cyber.db"`. -/
def step2DbPath (base : List PyStr) (domain : PyStr) : List PyStr :=
  outputDir base domain ++ [pyOf "organization_cyber.db"]

/-- `f"organization_names_{self.domain.lower().replace(' ', '_')}.csv"`. -/
def step1CsvPath (base : List PyStr) (domain : PyStr) : List PyStr :=
  outputDir base domain ++
    [pyOf "organization_names_" ++ pyReplaceC 32 95 (pyLower (domainAttr domain)) ++ pyOf ".csv"]

/-- `f"organization_cyber_{self.domain.lower().replace(' ', '_')}.xlsx"`. -/
def step2XlsxPath (base : List PyStr) (domain : PyStr) : List PyStr :=
  outputDir base domain ++
    [pyOf "organization_cyber_" ++ pyReplaceC 32 95 (pyLower (domainAttr domain)) ++ pyOf ".xlsx"]

/-- The stage-1 QuestionSet as step 1 builds it: axes from
`get_org_questions(domains=[self.domain], countries=COUNTRIES)`, then
`question_set.max_questions = 0`. -/
def step1QuestionSet (domain : PyStr) (countries : List PyStr) : QuestionSet :=
  let qs := organization_question.get_question_set [domainAttr domain] countries
  { qs with max_questions := 0 }

/-- The stage-2 QuestionSet as step 2 builds it from the hand-off columns,
then `question_set.max_questions = 0`. -/
def step2QuestionSet (organizations countries : List PyStr) : QuestionSet :=
  let qs := organization_cyber_question.get_question_set organizations countries
  { qs with max_questions := 0 }

end MinistryWorkflow

/-! ## Errors, answers, the orchestrator dispatch and the retry loop -/

/-- A Python exception value, as the workflow distinguishes them. -/
inductive PyError where
  | valueError : PyStr → PyError
  | assertionError : PyStr → PyError
  | other : PyStr → PyError
deriving DecidableEq

/-- `str(e)`: the message recorded in the batch report. -/
def PyError.message : PyError → PyStr
  | .valueError m => m
  | .assertionError m => m
  | .other m => m

/-- Modelled from the spec: an Answer pairs the Question with the structured
value returned by the QueryHandler. -/
structure Answer where
  question : Question
  structured_value : PyStr
deriving DecidableEq

/-- Modelled from the spec: `Workflow.ask_multiple(question_set,
return_results=True)` expands the QuestionSet, skips every Question whose
fingerprint already exists in the storage namespace, answers the remainder,
and returns only the newly produced Answers. -/
def ask_multiple (storage : List Question) (handler : Question → PyStr)
    (qs : QuestionSet) : List Answer :=
  ((qs.expand).filter (fun q => decide (q ∉ storage))).map
    (fun q => { question := q, structured_value := handler q })

/-- The retry loop of `step1_collect_organizations` / `step2_assess_cybersecurity`:
`dispatch n` is the outcome of the (n+1)-th invocation of `ask_multiple`;
the result is paired with the list of waits (`base_delay * 2 ** attempt`)
performed before each re-invocation.  `remaining` counts the retries left. -/
def retryAux {α : Type} (dispatch : Nat → Except PyError α) (baseDelay : ℚ) :
    Nat → Nat → Except PyError α × List ℚ
  | attempt, remaining =>
    match dispatch attempt with
    | .ok a => (.ok a, [])
    | .error e =>
      match remaining with
      | 0 => (.error e, [])
      | r + 1 =>
        let p := retryAux dispatch baseDelay (attempt + 1) r
        (p.1, baseDelay * 2 ^ attempt :: p.2)

/-- The loop `for attempt in range(max_retries + 1)` with `max_retries = 4`
and `base_delay = 2.0`. -/
def askWithRetry {α : Type} (dispatch : Nat → Except PyError α) :
    Except PyError α × List ℚ :=
  retryAux dispatch 2 0 4

namespace MinistryWorkflow

/-- `f"No answers returned for {self.domain}. Check if questions were processed."` -/
def step1ValueErrorMsg (domain : PyStr) : PyStr :=
  pyOf "No answers returned for " ++ domainAttr domain ++
    pyOf ". Check if questions were processed."

/-- `f"No answers returned for {self.domain} cybersecurity assessment. Check if questions were processed."` -/
def step2ValueErrorMsg (domain : PyStr) : PyStr :=
  pyOf "No answers returned for " ++ domainAttr domain ++
    pyOf " cybersecurity assessment. Check if questions were processed."

/-- Shared tail of both step methods: run the retry loop, re-raise the last
exception on exhaustion, and raise ValueError when no new answers came back. -/
def stepRun (emptyMsg : PyStr) (dispatch : Nat → Except PyError (List Answer)) :
    Except PyError (List Answer) :=
  match (askWithRetry dispatch).1 with
  | .error e => .error e
  | .ok answers =>
    if answers.isEmpty then .error (.valueError emptyMsg) else .ok answers

/-- Outcome of `step1_collect_organizations` for a given dispatch oracle. -/
def step1Run (domain : PyStr) (dispatch : Nat → Except PyError (List Answer)) :
    Except PyError (List Answer) :=
  stepRun (step1ValueErrorMsg domain) dispatch

/-- Outcome of `step2_assess_cybersecurity` for a given dispatch oracle. -/
def step2Run (domain : PyStr) (dispatch : Nat → Except PyError (List Answer)) :
    Except PyError (List Answer) :=
  stepRun (step2ValueErrorMsg domain) dispatch

end MinistryWorkflow

/-! ## The batch composer (`run_batch_workflow`) -/

/-- One entry of the batch-level report:
`{status: success, organizations: n, assessments: m}` or
`{status: error, error: message}`. -/
inductive DomainReport where
  | success : Nat → Nat → DomainReport
  | error : PyStr → DomainReport
deriving DecidableEq

/-- Python dict assignment `d[k] = v`: replaces in place, else appends. -/
def dictSet : List (PyStr × DomainReport) → PyStr → DomainReport →
    List (PyStr × DomainReport)
  | [], k, v => [(k, v)]
  | (k', v') :: rest, k, v =>
    if k = k' then (k, v) :: rest else (k', v') :: dictSet rest k v

/-- Python dict lookup `d[k]` (as an Option). -/
def dictGet (k : PyStr) : List (PyStr × DomainReport) → Option DomainReport
  | [] => none
  | (k', v') :: rest => if k = k' then some v' else dictGet k rest

/-- The report entry `run_batch_workflow` records for one domain, given the
outcome of `run_complete_workflow` (the pair of row counts on success). -/
def mkReport (r : Except PyError (Nat × Nat)) : DomainReport :=
  match r with
  | .ok (orgs, cybers) => .success orgs cybers
  | .error e => .error e.message

/-- `run_batch_workflow`: iterate over the domains in list order; catch any
exception from a domain's complete workflow and record it; record success
counts otherwise. `outcome d` abstracts `run_complete_workflow` for domain `d`. -/
def run_batch_workflow (outcome : PyStr → Except PyError (Nat × Nat))
    (domains : List PyStr) : List (PyStr × DomainReport) :=
  domains.foldl (fun results d => dictSet results d (mkReport (outcome d))) []

/-! ## Sequential trace model

`run_batch_workflow` awaits `run_complete_workflow` for each domain in list
order, and `run_complete_workflow` awaits step 1 to completion before
starting step 2.  The QueryHandler calls of one whole batch therefore form a
flat sequence of blocks: for each domain, first its stage-1 calls, then (only
when step 1 succeeded) its stage-2 calls.  `stage1Calls`/`stage2Calls` give
the calls one stage performs (retries included) and `step1Ok` whether step 1
succeeded for the domain. -/

/-- A tag (domain, stage) identifying which stage an event belongs to. -/
abbrev StageTag := PyStr × Nat

/-- One QueryHandler call event: its stage tag and a call identifier. -/
abbrev TraceEvent := StageTag × Nat

/-- Flatten a list of tagged blocks into the event sequence. -/
def blockFlatten {τ : Type} (blocks : List (τ × List Nat)) : List (τ × Nat) :=
  blocks.flatMap (fun b => b.2.map (fun c => (b.1, c)))

/-- The blocks one domain contributes: stage 1, then stage 2 if step 1 succeeded. -/
def domainBlocks (stage1Calls stage2Calls : PyStr → List Nat)
    (step1Ok : PyStr → Bool) (d : PyStr) : List (StageTag × List Nat) :=
  ((d, 1), stage1Calls d) :: (if step1Ok d then [((d, 2), stage2Calls d)] else [])

/-- The blocks of one batch, in domain-list order. -/
def batchBlocks (s1 s2 : PyStr → List Nat) (ok : PyStr → Bool)
    (domains : List PyStr) : List (StageTag × List Nat) :=
  domains.flatMap (domainBlocks s1 s2 ok)

/-- The full event sequence of `run_batch_workflow`, in temporal order. -/
def batchTrace (s1 s2 : PyStr → List Nat) (ok : PyStr → Bool)
    (domains : List PyStr) : List TraceEvent :=
  blockFlatten (batchBlocks s1 s2 ok domains)

/-- Index of the first occurrence of a domain in the domain list. -/
def listIndexOf : List PyStr → PyStr → Nat
  | [], _ => 0
  | d :: rest, x => if x = d then 0 else listIndexOf rest x + 1

/-- The position of a stage tag in the batch order: stage `s` of the `i`-th
domain gets measure `2 * i + s`. -/
def tagMeasure (domains : List PyStr) (t : StageTag) : Nat :=
  2 * listIndexOf domains t.1 + t.2

theorem listIndexOf_getElem (domains : List PyStr) (hnd : domains.Nodup)
    (i : Nat) (hi : i < domains.length) :
    listIndexOf domains (domains.get ⟨i, hi⟩) = i := by
  induction domains generalizing i with
  | nil => exact absurd hi (by simp)
  | cons d rest ih =>
    rcases List.nodup_cons.1 hnd with ⟨hd, hrest⟩
    cases i with
    | zero => simp [listIndexOf]
    | succ k =>
      have hk : k < rest.length := by simpa using hi
      have hmem : rest.get ⟨k, hk⟩ ∈ rest := List.get_mem rest k hk
      have hne : rest.get ⟨k, hk⟩ ≠ d := fun h => hd (h ▸ hmem)
      simp only [List.get_cons_succ, listIndexOf, if_neg hne]
      rw [ih hrest k hk]

theorem fst_mem_of_mem_blockFlatten {τ : Type} {blocks : List (τ × List Nat)}
    {e : τ × Nat} (h : e ∈ blockFlatten blocks) : e.1 ∈ blocks.map Prod.fst := by
  simp only [blockFlatten, List.mem_flatMap, List.mem_map] at h
  obtain ⟨b, hb, c, _, rfl⟩ := h
  exact List.mem_map.2 ⟨b, hb, rfl⟩

theorem pairwise_le_map_const {α : Type} (l : List α) (k : Nat) :
    (l.map (fun _ => k)).Pairwise (· ≤ ·) := by
  induction l with
  | nil => simp
  | cons a l ih =>
    simp only [List.map_cons, List.pairwise_cons]
    exact ⟨fun b hb => by
      rcases List.mem_map.1 hb with ⟨_, _, rfl⟩; exact le_refl k, ih⟩

/-- If the blocks' tag measures are strictly increasing, the measures along
the flattened event sequence are monotone. -/
theorem blockFlatten_measure_pairwise {τ : Type} (μ : τ → Nat)
    (blocks : List (τ × List Nat))
    (hinc : (blocks.map (fun b => μ b.1)).Pairwise (· < ·)) :
    ((blockFlatten blocks).map (fun e => μ e.1)).Pairwise (· ≤ ·) := by
  induction blocks with
  | nil => simp [blockFlatten]
  | cons b bs ih =>
    simp only [List.map_cons, List.pairwise_cons] at hinc
    have hflat : blockFlatten (b :: bs) =
        b.2.map (fun c => (b.1, c)) ++ blockFlatten bs := by
      simp [blockFlatten]
    rw [hflat, List.map_append, List.pairwise_append]
    refine ⟨?_, ih hinc.2, ?_⟩
    · rw [List.map_map]
      have hcomp : ((fun e : τ × Nat => μ e.1) ∘ fun c => (b.1, c)) =
          fun _ => μ b.1 := rfl
      rw [hcomp]
      exact pairwise_le_map_const b.2 (μ b.1)
    · intro x hx y hy
      rcases List.mem_map.1 hx with ⟨ex, hex, rfl⟩
      rcases List.mem_map.1 hex with ⟨cx, _, rfl⟩
      rcases List.mem_map.1 hy with ⟨ey, hey, rfl⟩
      have hys : ey.1 ∈ bs.map Prod.fst := fst_mem_of_mem_blockFlatten hey
      rcases List.mem_map.1 hys with ⟨by', hby, hfst⟩
      have hbl := hinc.1 (μ by'.1) (List.mem_map.2 ⟨by', hby, rfl⟩)
      rw [← hfst]
      exact le_of_lt hbl

/-- A later measure along the event sequence means a later position. -/
theorem blockFlatten_pos_lt {τ : Type} (μ : τ → Nat)
    (blocks : List (τ × List Nat))
    (hinc : (blocks.map (fun b => μ b.1)).Pairwise (· < ·))
    {p q : Nat} (hp : p < (blockFlatten blocks).length)
    (hq : q < (blockFlatten blocks).length)
    (hlt : μ ((blockFlatten blocks).get ⟨p, hp⟩).1 <
           μ ((blockFlatten blocks).get ⟨q, hq⟩).1) : p < q := by
  have hpair := blockFlatten_measure_pairwise μ blocks hinc
  rw [List.pairwise_iff_getElem] at hpair
  by_contra hnlt
  push_neg at hnlt
  rcases eq_or_lt_of_le hnlt with heq | hqp
  · subst heq
    exact lt_irrefl _ hlt
  · have hmono := hpair q p (by simpa using hq) (by simpa using hp) hqp
    simp only [List.getElem_map] at hmono
    simp only [List.get_eq_getElem] at hlt
    omega

theorem batchBlocks_tag_mem (s1 s2 : PyStr → List Nat) (ok : PyStr → Bool)
    (domains : List PyStr) {b : StageTag × List Nat}
    (hb : b ∈ batchBlocks s1 s2 ok domains) :
    b.1.1 ∈ domains ∧ (b.1.2 = 1 ∨ b.1.2 = 2) := by
  simp only [batchBlocks, List.mem_flatMap] at hb
  obtain ⟨d, hd, hbd⟩ := hb
  simp only [domainBlocks, List.mem_cons] at hbd
  rcases hbd with rfl | hbd
  · exact ⟨hd, Or.inl rfl⟩
  · split at hbd
    · rcases List.mem_singleton.1 hbd with rfl
      exact ⟨hd, Or.inr rfl⟩
    · exact absurd hbd (List.not_mem_nil b)

/-- The tag measures of a batch's blocks are strictly increasing when the
domain list has no duplicates. -/
theorem batchBlocks_measure_increasing (s1 s2 : PyStr → List Nat)
    (ok : PyStr → Bool) (domains : List PyStr) (hnd : domains.Nodup) :
    ((batchBlocks s1 s2 ok domains).map
      (fun b => tagMeasure domains b.1)).Pairwise (· < ·) := by
  induction domains with
  | nil => simp [batchBlocks]
  | cons d rest ih =>
    rcases List.nodup_cons.1 hnd with ⟨hd, hrest⟩
    have hsplit : batchBlocks s1 s2 ok (d :: rest) =
        domainBlocks s1 s2 ok d ++ batchBlocks s1 s2 ok rest := by
      simp [batchBlocks]
    rw [hsplit, List.map_append, List.pairwise_append]
    have hshift : ∀ b ∈ batchBlocks s1 s2 ok rest,
        tagMeasure (d :: rest) b.1 = tagMeasure rest b.1 + 2 := by
      intro b hb
      have hmem := (batchBlocks_tag_mem s1 s2 ok rest hb).1
      have hne : b.1.1 ≠ d := fun h => hd (h ▸ hmem)
      simp only [tagMeasure, listIndexOf, if_neg hne]
      ring
    refine ⟨?_, ?_, ?_⟩
    · simp only [domainBlocks, tagMeasure, listIndexOf, if_pos rfl]
      split
      · simp
      · simp
    · have hcong : (batchBlocks s1 s2 ok rest).map
          (fun b => tagMeasure (d :: rest) b.1) =
          (batchBlocks s1 s2 ok rest).map (fun b => tagMeasure rest b.1 + 2) :=
        List.map_congr_left hshift
      rw [hcong]
      rw [List.pairwise_map] at ih ⊢
      exact (ih hrest).imp_of_mem (fun _ _ hab => by omega)
    · intro x hx y hy
      rcases List.mem_map.1 hx with ⟨bx, hbx, rfl⟩
      rcases List.mem_map.1 hy with ⟨by', hby, rfl⟩
      have hx2 : bx.1.2 = 1 ∨ bx.1.2 = 2 := by
        simp only [domainBlocks, List.mem_cons] at hbx
        rcases hbx with rfl | hbx
        · exact Or.inl rfl
        · split at hbx
          · rcases List.mem_singleton.1 hbx with rfl
            exact Or.inr rfl
          · exact absurd hbx (List.not_mem_nil bx)
      have hxd : bx.1.1 = d := by
        simp only [domainBlocks, List.mem_cons] at hbx
        rcases hbx with rfl | hbx
        · rfl
        · split at hbx
          · rcases List.mem_singleton.1 hbx with rfl
            rfl
          · exact absurd hbx (List.not_mem_nil bx)
      have hy2 := (batchBlocks_tag_mem s1 s2 ok rest hby).2
      have hyshift := hshift by' hby
      have hxval : tagMeasure (d :: rest) bx.1 = bx.1.2 := by
        simp [tagMeasure, listIndexOf, hxd]
      have hyval : 1 ≤ tagMeasure rest by'.1 := by
        simp only [tagMeasure]
        omega
      omega

/-! ## Export model (step 1 CSV, step 2 spreadsheet) -/

/-- A flattened table: ordered columns, each a name with its values. -/
abbrev Table := List (PyStr × List PyStr)

/-- `df.drop(columns=[name], errors='ignore')`: remove the column when present. -/
def dropColumn (name : PyStr) (t : Table) : Table :=
  t.filter (fun col => decide (col.1 ≠ name))

/-- The kinds of files the workflow writes. -/
inductive ExportFile where
  | csvFile : Table → ExportFile
  | xlsxFile : Table → ExportFile
deriving DecidableEq

/-- The file system, as a map from paths to files. -/
def FileSystem : Type := List PyStr → Option ExportFile

/-- Modelled from the spec: `pandas.DataFrame.to_csv(path, mode='w')` and
`to_excel(path)` are outside this repository; per spec §6 "Both exports
overwrite any prior file at the same path", a write maps the path to the new
file unconditionally and leaves every other path unchanged. -/
def writeFile (path : List PyStr) (f : ExportFile) (fs : FileSystem) : FileSystem :=
  fun p => if p = path then some f else fs p

namespace MinistryWorkflow

/-- Step 1's export: drop `enriched_citations`, then write the CSV. -/
def step1Export (base : List PyStr) (domain : PyStr) (flattened : Table)
    (fs : FileSystem) : FileSystem :=
  writeFile (step1CsvPath base domain)
    (.csvFile (dropColumn (pyOf "enriched_citations") flattened)) fs

/-- Step 2's export: write the whole flattened table as a spreadsheet. -/
def step2Export (base : List PyStr) (domain : PyStr) (flattened : Table)
    (fs : FileSystem) : FileSystem :=
  writeFile (step2XlsxPath base domain) (.xlsxFile flattened) fs

end MinistryWorkflow

/-! ## Reference vocabularies (`data/__init__.py`) -/

/-- Loading one vocabulary at module-import time: read the csv rows into a
list, then `assert sentinel in rows`; a failing assert raises AssertionError
while the module loads, before any dispatch can run. -/
def loadVocab (sentinel : PyStr) (rows : List PyStr) : Except PyError (List PyStr) :=
  if sentinel ∈ rows then .ok rows
  else .error (.assertionError (pyOf "AssertionError"))

/-- `COUNTRIES = pd.read_csv(... "countries.csv" ...).to_list(); assert "Albania" in COUNTRIES`. -/
def loadCountries (rows : List PyStr) : Except PyError (List PyStr) :=
  loadVocab (pyOf "Albania") rows

/-- `DOMAINS = pd.read_csv(... "domains.csv" ...).to_list(); assert "Energy" in DOMAINS`. -/
def loadDomains (rows : List PyStr) : Except PyError (List PyStr) :=
  loadVocab (pyOf "Energy") rows

/-! ## Support lemmas: retry loop, dict operations, expansion -/

theorem retryAux_ok {α : Type} (dispatch : Nat → Except PyError α)
    (baseDelay : ℚ) (es : Nat → PyError) (a : α) :
    ∀ (N start r : Nat), N ≤ r →
    (∀ j, j < N → dispatch (start + j) = .error (es (start + j))) →
    dispatch (start + N) = .ok a →
    retryAux dispatch baseDelay start r =
      (.ok a, (List.range N).map (fun j => baseDelay * 2 ^ (start + j))) := by
  intro N
  induction N with
  | zero =>
    intro start r _ _ hok
    rw [retryAux]
    simp only [Nat.add_zero] at hok
    rw [hok]
    simp
  | succ n ih =>
    intro start r hNr hfail hok
    obtain ⟨r', rfl⟩ : ∃ r', r = r' + 1 := ⟨r - 1, by omega⟩
    rw [retryAux]
    have h0 : dispatch start = .error (es start) := by
      have := hfail 0 (Nat.succ_pos n)
      simpa using this
    rw [h0]
    have hrec := ih (start + 1) r' (by omega)
      (fun j hj => by
        have := hfail (j + 1) (by omega)
        have harith : start + (j + 1) = start + 1 + j := by omega
        rwa [harith] at this)
      (by
        have harith : start + (n + 1) = start + 1 + n := by omega
        rwa [harith] at hok)
    simp only [hrec]
    have hlist : (List.range (n + 1)).map (fun j => baseDelay * 2 ^ (start + j)) =
        baseDelay * 2 ^ start ::
          (List.range n).map (fun j => baseDelay * 2 ^ (start + 1 + j)) := by
      rw [List.range_succ_eq_map, List.map_cons, List.map_map]
      simp only [Nat.add_zero]
      congr 1
      apply List.map_congr_left
      intro j _
      have harith : start + (j + 1) = start + 1 + j := by omega
      simp [Function.comp, harith]
    rw [hlist]

theorem retryAux_allfail {α : Type} (dispatch : Nat → Except PyError α)
    (baseDelay : ℚ) (es : Nat → PyError) :
    ∀ (r start : Nat),
    (∀ j, j ≤ r → dispatch (start + j) = .error (es (start + j))) →
    retryAux dispatch baseDelay start r =
      ((.error (es (start + r)) : Except PyError α),
        (List.range r).map (fun j => baseDelay * 2 ^ (start + j))) := by
  intro r
  induction r with
  | zero =>
    intro start hfail
    rw [retryAux]
    have h0 := hfail 0 (le_refl 0)
    simp only [Nat.add_zero] at h0
    rw [h0]
    simp
  | succ n ih =>
    intro start hfail
    rw [retryAux]
    have h0 : dispatch start = .error (es start) := by
      have := hfail 0 (by omega)
      simpa using this
    rw [h0]
    have hrec := ih (start + 1)
      (fun j hj => by
        have := hfail (j + 1) (by omega)
        have harith : start + (j + 1) = start + 1 + j := by omega
        rwa [harith] at this)
    simp only [hrec]
    have harith : start + 1 + n = start + (n + 1) := by omega
    rw [harith]
    have hlist : (List.range (n + 1)).map (fun j => baseDelay * 2 ^ (start + j)) =
        baseDelay * 2 ^ start ::
          (List.range n).map (fun j => baseDelay * 2 ^ (start + 1 + j)) := by
      rw [List.range_succ_eq_map, List.map_cons, List.map_map]
      simp only [Nat.add_zero]
      congr 1
      apply List.map_congr_left
      intro j _
      have harith2 : start + (j + 1) = start + 1 + j := by omega
      simp [Function.comp, harith2]
    rw [hlist]

theorem dictGet_dictSet (l : List (PyStr × DomainReport)) (k k' : PyStr)
    (v : DomainReport) :
    dictGet k' (dictSet l k v) = if k' = k then some v else dictGet k' l := by
  induction l with
  | nil => simp [dictSet, dictGet]
  | cons kv rest ih =>
    obtain ⟨k0, v0⟩ := kv
    by_cases hk : k = k0
    · subst hk
      simp only [dictSet, if_pos rfl, dictGet]
      by_cases hk' : k' = k
      · simp [hk']
      · simp [hk']
    · simp only [dictSet, if_neg hk, dictGet]
      by_cases hk0 : k' = k0
      · subst hk0
        have : ¬ k' = k := fun h => hk (h ▸ rfl)
        simp [this]
      · simp only [if_neg hk0]
        exact ih

theorem mem_keys_dictSet (l : List (PyStr × DomainReport)) (k k' : PyStr)
    (v : DomainReport) :
    k' ∈ (dictSet l k v).map Prod.fst ↔ k' = k ∨ k' ∈ l.map Prod.fst := by
  induction l with
  | nil => simp [dictSet]
  | cons kv rest ih =>
    obtain ⟨k0, v0⟩ := kv
    by_cases hk : k = k0
    · subst hk
      simp [dictSet]
    · simp only [dictSet, if_neg hk, List.map_cons, List.mem_cons, ih]
      tauto

theorem nodup_keys_dictSet (l : List (PyStr × DomainReport)) (k : PyStr)
    (v : DomainReport) (h : (l.map Prod.fst).Nodup) :
    ((dictSet l k v).map Prod.fst).Nodup := by
  induction l with
  | nil => simp [dictSet]
  | cons kv rest ih =>
    obtain ⟨k0, v0⟩ := kv
    simp only [List.map_cons, List.nodup_cons] at h
    by_cases hk : k = k0
    · subst hk
      simp only [dictSet, eq_self_iff_true, if_true, List.map_cons, List.nodup_cons]
      exact h
    · simp only [dictSet, if_neg hk, List.map_cons, List.nodup_cons]
      refine ⟨?_, ih h.2⟩
      rw [mem_keys_dictSet]
      rintro (rfl | hmem)
      · exact hk rfl
      · exact h.1 hmem

theorem run_batch_foldl (outcome : PyStr → Except PyError (Nat × Nat)) :
    ∀ (ds : List PyStr) (acc : List (PyStr × DomainReport)),
    (∀ d, dictGet d (ds.foldl
        (fun results d' => dictSet results d' (mkReport (outcome d'))) acc) =
      if d ∈ ds then some (mkReport (outcome d)) else dictGet d acc) ∧
    ((acc.map Prod.fst).Nodup →
      ((ds.foldl (fun results d' => dictSet results d' (mkReport (outcome d'))) acc).map
        Prod.fst).Nodup) ∧
    (∀ d, d ∈ (ds.foldl
        (fun results d' => dictSet results d' (mkReport (outcome d'))) acc).map Prod.fst ↔
      d ∈ ds ∨ d ∈ acc.map Prod.fst) := by
  intro ds
  induction ds with
  | nil => intro acc; simp
  | cons d0 rest ih =>
    intro acc
    simp only [List.foldl_cons]
    obtain ⟨ihget, ihnodup, ihmem⟩ := ih (dictSet acc d0 (mkReport (outcome d0)))
    refine ⟨?_, ?_, ?_⟩
    · intro d
      rw [ihget d, dictGet_dictSet]
      by_cases hrest : d ∈ rest
      · simp [hrest]
      · by_cases hd0 : d = d0
        · subst hd0
          simp [hrest]
        · simp [hrest, hd0]
    · intro hacc
      exact ihnodup (nodup_keys_dictSet acc d0 _ hacc)
    · intro d
      rw [ihmem d, mem_keys_dictSet]
      simp only [List.mem_cons]
      tauto

theorem axesProduct_length (axes : List (List PyStr)) :
    (axesProduct axes).length = (axes.map List.length).prod := by
  induction axes with
  | nil => simp [axesProduct]
  | cons a rest ih =>
    have hsum : ∀ (l : List PyStr) (k : Nat), (l.map (fun _ => k)).sum = l.length * k := by
      intro l k
      induction l with
      | nil => simp
      | cons x xs ihx =>
        simp only [List.map_cons, List.sum_cons, ihx, List.length_cons]
        ring
    simp only [axesProduct, List.length_flatMap]
    have hcongr : List.map (List.length ∘ fun v =>
        List.map (fun vs => v :: vs) (axesProduct rest)) a =
        List.map (fun _ => (axesProduct rest).length) a := by
      apply List.map_congr_left
      intro v _
      simp
    rw [hcongr, hsum, ih]
    simp

theorem expand_single_axis (name : PyStr) (axis : List PyStr) (tpl rm : PyStr) :
    (QuestionSet.mk [(name, axis)] tpl rm 0).expand =
      axis.map (fun v =>
        { template := tpl, bindings := [(name, v)], response_model := rm }) := by
  have hcombos : axesProduct [axis] = axis.map (fun v => [v]) := by
    induction axis with
    | nil => simp [axesProduct]
    | cons v vs ih => simp_all [axesProduct]
  simp [QuestionSet.expand, hcombos, List.map_map, Function.comp]

theorem expand_length_of_unlimited (qs : QuestionSet) (h : qs.max_questions = 0) :
    qs.expand.length = (qs.word_sets.map (fun ws => ws.2.length)).prod := by
  simp only [QuestionSet.expand, h, if_pos, List.length_map, axesProduct_length,
    List.map_map]
  rfl

theorem pyUpper_pyLower (s : PyStr) : pyUpper (pyLower s) = pyUpper s := by
  simp only [pyUpper, pyLower, List.map_map]
  exact List.map_congr_left (fun c _ => pyUpperC_pyLowerC c)

/-! ## The claims -/

/-- C1: In each stage's retry wrapper (`step1_collect_organizations` and
`step2_assess_cybersecurity` share it verbatim), if the first `N ≤ 4`
invocations of `ask_multiple` raise and invocation `N` succeeds, the loop
returns that success and the waits performed are exactly
`2.0 * 2 ^ i` for `i = 0 .. N-1` (so the total wait is their sum); if all
five attempts raise, the loop re-raises the last exception after the four
scheduled waits. -/
theorem retry_backoff_schedule {α : Type} (dispatch : Nat → Except PyError α)
    (N : Nat) (a : α) (es : Nat → PyError) :
    (N ≤ 4 → (∀ j, j < N → dispatch j = .error (es j)) → dispatch N = .ok a →
      askWithRetry dispatch =
        (.ok a, (List.range N).map (fun j => (2 : ℚ) * 2 ^ j)) ∧
      (askWithRetry dispatch).2.sum =
        ((List.range N).map (fun j => (2 : ℚ) * 2 ^ j)).sum) ∧
    ((∀ j, j ≤ 4 → dispatch j = .error (es j)) →
      askWithRetry dispatch =
        (.error (es 4), (List.range 4).map (fun j => (2 : ℚ) * 2 ^ j))) := by
  constructor
  · intro hN hfail hok
    have h := retryAux_ok dispatch 2 es a N 0 4 hN
      (fun j hj => by simpa using hfail j hj) (by simpa using hok)
    simp only [Nat.zero_add] at h
    have hmain : askWithRetry dispatch =
        (.ok a, (List.range N).map (fun j => (2 : ℚ) * 2 ^ j)) := h
    exact ⟨hmain, by rw [hmain]⟩
  · intro hfail
    have h := retryAux_allfail dispatch 2 es 4 0 (fun j hj => by simpa using hfail j hj)
    simp only [Nat.zero_add] at h
    exact h

/-- Witness for C1: a dispatch failing on attempts 0 and 1 and succeeding on
attempt 2 yields the success with waits 2·2⁰ and 2·2¹. -/
theorem retry_backoff_schedule_witness :
    askWithRetry (fun n => if n < 2 then .error (.other (pyOf "429"))
        else (.ok 7 : Except PyError Nat)) =
      (.ok 7, (List.range 2).map (fun j => (2 : ℚ) * 2 ^ j)) :=
  ((retry_backoff_schedule
      (fun n => if n < 2 then .error (.other (pyOf "429")) else .ok 7)
      2 7 (fun _ => .other (pyOf "429"))).1
    (by omega) (fun j hj => by interval_cases j <;> rfl) (by rfl)).1

/-- C2: `run_batch_workflow` catches any exception a domain's complete
workflow raises and keeps going: for every domain in the input list the
returned report holds exactly one entry, a success entry with the two counts
when `run_complete_workflow` returned them, an error entry with the
exception's message when it raised; the report's keys are exactly the input
domains. -/
theorem batch_report_complete (outcome : PyStr → Except PyError (Nat × Nat))
    (domains : List PyStr) :
    (∀ d n m, d ∈ domains → outcome d = .ok (n, m) →
      dictGet d (run_batch_workflow outcome domains) = some (.success n m)) ∧
    (∀ d e, d ∈ domains → outcome d = .error e →
      dictGet d (run_batch_workflow outcome domains) = some (.error e.message)) ∧
    ((run_batch_workflow outcome domains).map Prod.fst).Nodup ∧
    (∀ d, d ∈ (run_batch_workflow outcome domains).map Prod.fst ↔ d ∈ domains) := by
  obtain ⟨hget, hnodup, hmem⟩ := run_batch_foldl outcome domains []
  refine ⟨?_, ?_, ?_, ?_⟩
  · intro d n m hd hout
    have h := hget d
    rw [if_pos hd] at h
    rw [run_batch_workflow, h, hout]
    rfl
  · intro d e hd hout
    have h := hget d
    rw [if_pos hd] at h
    rw [run_batch_workflow, h, hout]
    rfl
  · exact hnodup (by simp)
  · intro d
    have h := hmem d
    simpa [run_batch_workflow] using h

/-- Witness for C2: with Energy succeeding and Health raising, the report
holds Health's error message. -/
theorem batch_report_complete_witness :
    dictGet (pyOf "Health")
      (run_batch_workflow
        (fun d => if d = pyOf "Health" then .error (.other (pyOf "boom"))
          else .ok (3, 2))
        [pyOf "Energy", pyOf "Health"]) = some (.error (pyOf "boom")) :=
  (batch_report_complete
      (fun d => if d = pyOf "Health" then .error (.other (pyOf "boom"))
        else .ok (3, 2))
      [pyOf "Energy", pyOf "Health"]).2.1
    (pyOf "Health") (.other (pyOf "boom")) (by decide) (by rw [if_pos rfl])

/-- C3 (counterexample): the claim fails as stated — `"Energy"` and
`"energy"` are distinct domain names, yet both stages' database paths
coincide, because the directory name is the lower-cased sanitised input. -/
theorem domain_namespace_counterexample :
    pyOf "Energy" ≠ pyOf "energy" ∧
    MinistryWorkflow.step1DbPath [] (pyOf "Energy") =
      MinistryWorkflow.step1DbPath [] (pyOf "energy") ∧
    MinistryWorkflow.step2DbPath [] (pyOf "Energy") =
      MinistryWorkflow.step2DbPath [] (pyOf "energy") :=
  ⟨by decide, by decide, by decide⟩

/-- C3 (amended): for every pair of domain names whose sanitised directory
names (`domain.lower().replace(" ", "_").replace("/", "_")`) differ, the four
database paths of the two domains are pairwise distinct, so the sub-runs use
disjoint storage namespaces (each step constructs its provider from its own
path, so no provider instance spans two sub-runs); within one domain the two
stages always use the two distinct stores `organization.db` and
`organization_cyber.db`. -/
theorem domain_namespace_isolation (base : List PyStr) (d1 d2 : PyStr)
    (h : MinistryWorkflow.dirName d1 ≠ MinistryWorkflow.dirName d2) :
    (MinistryWorkflow.step1DbPath base d1 ≠ MinistryWorkflow.step1DbPath base d2 ∧
     MinistryWorkflow.step1DbPath base d1 ≠ MinistryWorkflow.step2DbPath base d2 ∧
     MinistryWorkflow.step2DbPath base d1 ≠ MinistryWorkflow.step1DbPath base d2 ∧
     MinistryWorkflow.step2DbPath base d1 ≠ MinistryWorkflow.step2DbPath base d2) ∧
    (∀ d, MinistryWorkflow.step1DbPath base d ≠ MinistryWorkflow.step2DbPath base d) := by
  have key : ∀ (a b f g : PyStr),
      (base ++ [a] ++ [f] = base ++ [b] ++ [g]) ↔ (a = b ∧ f = g) := by
    intro a b f g
    rw [List.append_assoc, List.append_assoc, List.append_right_inj]
    simp
  have hfiles : pyOf "organization.db" ≠ pyOf "organization_cyber.db" := by decide
  refine ⟨⟨?_, ?_, ?_, ?_⟩, ?_⟩
  · intro heq
    exact h ((key _ _ _ _).1 heq).1
  · intro heq
    exact h ((key _ _ _ _).1 heq).1
  · intro heq
    exact h ((key _ _ _ _).1 heq).1
  · intro heq
    exact h ((key _ _ _ _).1 heq).1
  · intro d heq
    exact hfiles ((key _ _ _ _).1 heq).2

/-- Witness for the amended C3 at concrete distinct domains. -/
theorem domain_namespace_isolation_witness :
    MinistryWorkflow.step1DbPath [] (pyOf "Energy") ≠
      MinistryWorkflow.step1DbPath [] (pyOf "Health") :=
  (domain_namespace_isolation [] (pyOf "Energy") (pyOf "Health") (by decide)).1.1

/-- C4: for an n-row hand-off table, stage 2's QuestionSet has the single
axis `organization_country` holding the n positional zips
`"<organization> in <country>"`, and its expansion is one Question per pair
— n Questions, never the n×n cross product. -/
theorem paired_mode_expansion (organizations countries : List PyStr)
    (h : organizations.length = countries.length) :
    (MinistryWorkflow.step2QuestionSet organizations countries).word_sets =
      [(pyOf "organization_country",
        List.zipWith organization_cyber_question.orgInCountry organizations countries)] ∧
    (List.zipWith organization_cyber_question.orgInCountry organizations countries).length =
      organizations.length ∧
    (MinistryWorkflow.step2QuestionSet organizations countries).expand =
      (List.zipWith organization_cyber_question.orgInCountry organizations countries).map
        (fun v => { template := organization_cyber_question.template,
                    bindings := [(pyOf "organization_country", v)],
                    response_model := pyOf "OrganizationCyberModel" }) ∧
    (MinistryWorkflow.step2QuestionSet organizations countries).expand.length =
      organizations.length := by
  have hlen : (List.zipWith organization_cyber_question.orgInCountry
      organizations countries).length = organizations.length := by
    rw [List.length_zipWith, h, Nat.min_self]
  have hexp := expand_single_axis (pyOf "organization_country")
    (List.zipWith organization_cyber_question.orgInCountry organizations countries)
    organization_cyber_question.template (pyOf "OrganizationCyberModel")
  refine ⟨rfl, hlen, hexp, ?_⟩
  rw [show (MinistryWorkflow.step2QuestionSet organizations countries).expand =
      (List.zipWith organization_cyber_question.orgInCountry organizations countries).map
        (fun v => { template := organization_cyber_question.template,
                    bindings := [(pyOf "organization_country", v)],
                    response_model := pyOf "OrganizationCyberModel" }) from hexp,
    List.length_map, hlen]

/-- Witness for C4 on a two-row hand-off table. -/
theorem paired_mode_expansion_witness :
    (MinistryWorkflow.step2QuestionSet
      [pyOf "Ministry of Energy", pyOf "Ministry of Health"]
      [pyOf "Albania", pyOf "France"]).expand.length = 2 :=
  (paired_mode_expansion
    [pyOf "Ministry of Energy", pyOf "Ministry of Health"]
    [pyOf "Albania", pyOf "France"] (by decide)).2.2.2

/-- C5: the batch processes domains strictly sequentially: in the batch's
event sequence, every QueryHandler call of an earlier-listed domain precedes
every call of a later-listed domain, and within one domain every stage-1
call precedes every stage-2 call. -/
theorem sequential_domain_order (s1 s2 : PyStr → List Nat) (ok : PyStr → Bool)
    (domains : List PyStr) (hnd : domains.Nodup)
    (p q : Nat) (hp : p < (batchTrace s1 s2 ok domains).length)
    (hq : q < (batchTrace s1 s2 ok domains).length) :
    (∀ i j (hi : i < domains.length) (hj : j < domains.length), i < j →
      ((batchTrace s1 s2 ok domains).get ⟨p, hp⟩).1.1 = domains.get ⟨i, hi⟩ →
      ((batchTrace s1 s2 ok domains).get ⟨q, hq⟩).1.1 = domains.get ⟨j, hj⟩ →
      p < q) ∧
    (∀ d, ((batchTrace s1 s2 ok domains).get ⟨p, hp⟩).1 = (d, 1) →
      ((batchTrace s1 s2 ok domains).get ⟨q, hq⟩).1 = (d, 2) → p < q) := by
  have key : tagMeasure domains ((batchTrace s1 s2 ok domains).get ⟨p, hp⟩).1 <
      tagMeasure domains ((batchTrace s1 s2 ok domains).get ⟨q, hq⟩).1 → p < q :=
    fun hlt => blockFlatten_pos_lt (tagMeasure domains)
      (batchBlocks s1 s2 ok domains)
      (batchBlocks_measure_increasing s1 s2 ok domains hnd) hp hq hlt
  have hstage : ∀ (r : Nat) (hr : r < (batchTrace s1 s2 ok domains).length),
      ((batchTrace s1 s2 ok domains).get ⟨r, hr⟩).1.2 = 1 ∨
      ((batchTrace s1 s2 ok domains).get ⟨r, hr⟩).1.2 = 2 := by
    intro r hr
    have hmem : (batchTrace s1 s2 ok domains).get ⟨r, hr⟩ ∈
        blockFlatten (batchBlocks s1 s2 ok domains) :=
      List.get_mem _ r hr
    have hfst := fst_mem_of_mem_blockFlatten hmem
    rcases List.mem_map.1 hfst with ⟨b, hb, hbe⟩
    have hs := (batchBlocks_tag_mem s1 s2 ok domains hb).2
    rw [hbe] at hs
    exact hs
  constructor
  · intro i j hi hj hij hpi hqj
    apply key
    have hsp := hstage p hp
    have hsq := hstage q hq
    simp only [tagMeasure, hpi, hqj,
      listIndexOf_getElem domains hnd i hi, listIndexOf_getElem domains hnd j hj]
    omega
  · intro d h1 h2
    apply key
    rw [h1, h2]
    simp only [tagMeasure]
    omega

/-- Witness for C5: with domains [Energy, Health], each one stage-1 call,
Energy's call (position 0) precedes Health's (position 1). -/
theorem sequential_domain_order_witness : (0 : Nat) < 1 :=
  (sequential_domain_order (fun _ => [0]) (fun _ => [])
      (fun _ => false) [pyOf "Energy", pyOf "Health"] (by decide)
      0 1 (by decide) (by decide)).1
    0 1 (by decide) (by decide) (by decide) (by decide) (by decide)

/-- C6: stage 1 dispatches a QuestionSet whose word_sets are exactly the two
axes `domain` (the single given domain, normalised) and `country` (one value
per reference country), declared in that order, with `max_questions = 0` and
an untruncated expansion of one Question per country. -/
theorem stage1_axes (domain : PyStr) (countries : List PyStr) :
    (MinistryWorkflow.step1QuestionSet domain countries).word_sets =
      [(pyOf "domain", [pyUpper (MinistryWorkflow.domainAttr domain)]),
       (pyOf "country", countries.map pyUpper)] ∧
    (countries.map pyUpper).length = countries.length ∧
    (MinistryWorkflow.step1QuestionSet domain countries).max_questions = 0 ∧
    (MinistryWorkflow.step1QuestionSet domain countries).expand.length =
      countries.length := by
  refine ⟨rfl, List.length_map _ _, rfl, ?_⟩
  rw [expand_length_of_unlimited _ rfl]
  show ([(pyOf "domain", [pyUpper (MinistryWorkflow.domainAttr domain)]),
    (pyOf "country", countries.map pyUpper)].map (fun ws => ws.2.length)).prod =
    countries.length
  simp

/-- C7: a successful domain run's exports: step 1 writes the flattened table
with the `enriched_citations` column dropped (and only that column) as the
CSV at its path, step 2 writes the full flattened table as the spreadsheet
at its path; both writes replace whatever file was at that path before, for
every prior file-system state, and touch no other path. -/
theorem export_formats (base : List PyStr) (domain : PyStr) (t1 t2 : Table)
    (fs : FileSystem) :
    MinistryWorkflow.step1Export base domain t1 fs
      (MinistryWorkflow.step1CsvPath base domain) =
      some (.csvFile (dropColumn (pyOf "enriched_citations") t1)) ∧
    MinistryWorkflow.step2Export base domain t2 fs
      (MinistryWorkflow.step2XlsxPath base domain) =
      some (.xlsxFile t2) ∧
    pyOf "enriched_citations" ∉
      (dropColumn (pyOf "enriched_citations") t1).map Prod.fst ∧
    (∀ col, col ∈ t1 → col.1 ≠ pyOf "enriched_citations" →
      col ∈ dropColumn (pyOf "enriched_citations") t1) ∧
    (∀ p, p ≠ MinistryWorkflow.step1CsvPath base domain →
      MinistryWorkflow.step1Export base domain t1 fs p = fs p) := by
  refine ⟨?_, ?_, ?_, ?_, ?_⟩
  · simp [MinistryWorkflow.step1Export, writeFile]
  · simp [MinistryWorkflow.step2Export, writeFile]
  · intro hmem
    rcases List.mem_map.1 hmem with ⟨col, hcol, hfst⟩
    have hfilt := List.of_mem_filter hcol
    simp only [decide_eq_true_eq] at hfilt
    exact hfilt hfst
  · intro col hcol hne
    exact List.mem_filter.2 ⟨hcol, by simpa using hne⟩
  · intro p hne
    simp [MinistryWorkflow.step1Export, writeFile, hne]

/-- Witness for C7: a non-citation column survives the drop in a concrete
table, at a concrete file-system state. -/
theorem export_formats_witness :
    (pyOf "country", [pyOf "ALBANIA"]) ∈
      dropColumn (pyOf "enriched_citations")
        [(pyOf "country", [pyOf "ALBANIA"]), (pyOf "enriched_citations", [])] :=
  (export_formats [] (pyOf "Energy")
      [(pyOf "country", [pyOf "ALBANIA"]), (pyOf "enriched_citations", [])]
      [] (fun _ => none)).2.2.2.1
    (pyOf "country", [pyOf "ALBANIA"]) (by decide) (by decide)

/-- C8: each vocabulary load validates its list with an assertion: a load
that completes returns the raw rows, guaranteed to contain the sentinel
("Albania" for countries, "Energy" for domains) and hence to be non-empty;
a list missing the sentinel makes the import fail with AssertionError before
any dispatch can run. -/
theorem vocab_validation (rawC rawD cs ds : List PyStr) :
    (loadCountries rawC = .ok cs → cs = rawC ∧ cs ≠ [] ∧ pyOf "Albania" ∈ cs) ∧
    (loadDomains rawD = .ok ds → ds = rawD ∧ ds ≠ [] ∧ pyOf "Energy" ∈ ds) ∧
    (pyOf "Albania" ∉ rawC →
      ∃ m, loadCountries rawC = .error (.assertionError m)) ∧
    (pyOf "Energy" ∉ rawD →
      ∃ m, loadDomains rawD = .error (.assertionError m)) := by
  refine ⟨?_, ?_, ?_, ?_⟩
  · intro h
    simp only [loadCountries, loadVocab] at h
    split_ifs at h with hmem
    · injection h with h'
      subst h'
      exact ⟨rfl, List.ne_nil_of_mem hmem, hmem⟩
  · intro h
    simp only [loadDomains, loadVocab] at h
    split_ifs at h with hmem
    · injection h with h'
      subst h'
      exact ⟨rfl, List.ne_nil_of_mem hmem, hmem⟩
  · intro hmem
    exact ⟨pyOf "AssertionError", by simp [loadCountries, loadVocab, hmem]⟩
  · intro hmem
    exact ⟨pyOf "AssertionError", by simp [loadDomains, loadVocab, hmem]⟩

/-- Witness for C8 on singleton vocabularies containing the sentinels. -/
theorem vocab_validation_witness :
    [pyOf "Albania"] ≠ ([] : List PyStr) ∧ pyOf "Albania" ∈ [pyOf "Albania"] :=
  ⟨((vocab_validation [pyOf "Albania"] [pyOf "Energy"]
      [pyOf "Albania"] [pyOf "Energy"]).1 (by rfl)).2.1,
   ((vocab_validation [pyOf "Albania"] [pyOf "Energy"]
      [pyOf "Albania"] [pyOf "Energy"]).1 (by rfl)).2.2⟩

/-- C9: when a stage's dispatch succeeds but yields no new answers — in
particular when every question of the stage-1 set is already in the domain's
storage namespace, so `ask_multiple` returns the empty list — the step
raises ValueError instead of reporting a clean no-op success. -/
theorem rerun_empty_raises (domain : PyStr)
    (dispatch : Nat → Except PyError (List Answer))
    (storage : List Question) (handler : Question → PyStr)
    (countries : List PyStr) :
    ((askWithRetry dispatch).1 = .ok [] →
      MinistryWorkflow.step1Run domain dispatch =
        .error (.valueError (MinistryWorkflow.step1ValueErrorMsg domain)) ∧
      MinistryWorkflow.step2Run domain dispatch =
        .error (.valueError (MinistryWorkflow.step2ValueErrorMsg domain))) ∧
    ((∀ q ∈ (MinistryWorkflow.step1QuestionSet domain countries).expand,
        q ∈ storage) →
      MinistryWorkflow.step1Run domain
        (fun _ => .ok (ask_multiple storage handler
          (MinistryWorkflow.step1QuestionSet domain countries))) =
        .error (.valueError (MinistryWorkflow.step1ValueErrorMsg domain))) := by
  have hgen : ∀ (disp : Nat → Except PyError (List Answer)),
      (askWithRetry disp).1 = .ok [] →
      MinistryWorkflow.step1Run domain disp =
        .error (.valueError (MinistryWorkflow.step1ValueErrorMsg domain)) ∧
      MinistryWorkflow.step2Run domain disp =
        .error (.valueError (MinistryWorkflow.step2ValueErrorMsg domain)) := by
    intro disp h
    constructor
    · simp [MinistryWorkflow.step1Run, MinistryWorkflow.stepRun, h]
    · simp [MinistryWorkflow.step2Run, MinistryWorkflow.stepRun, h]
  refine ⟨hgen dispatch, ?_⟩
  intro hall
  have hempty : ask_multiple storage handler
      (MinistryWorkflow.step1QuestionSet domain countries) = [] := by
    unfold ask_multiple
    rw [List.map_eq_nil_iff, List.filter_eq_nil_iff]
    intro q hq
    simpa using hall q hq
  exact (hgen _ (by rw [hempty]; rfl)).1

/-- Witness for C9: an empty-returning dispatch (and a stage-1 set whose
questions all sit in storage) makes step 1 raise ValueError. -/
theorem rerun_empty_raises_witness :
    MinistryWorkflow.step1Run (pyOf "Energy") (fun _ => .ok []) =
      .error (.valueError (MinistryWorkflow.step1ValueErrorMsg (pyOf "Energy"))) :=
  ((rerun_empty_raises (pyOf "Energy") (fun _ => .ok []) [] (fun _ => pyOf "")
    []).1 (by rfl)).1

/-- C10: stage-1 bindings are case-normalised: the workflow strips and
title-cases the domain and `get_question_set` upper-cases every binding, so
two runs whose domains agree up to letter case and surrounding whitespace
and whose country lists agree up to letter case build identical stage-1
QuestionSets and hence identical question fingerprints. -/
theorem case_insensitive_stage1 (d1 d2 : PyStr) (cs1 cs2 : List PyStr)
    (hd : pyLower (pyStrip d1) = pyLower (pyStrip d2))
    (hc : cs1.map pyLower = cs2.map pyLower) :
    MinistryWorkflow.step1QuestionSet d1 cs1 =
      MinistryWorkflow.step1QuestionSet d2 cs2 ∧
    (MinistryWorkflow.step1QuestionSet d1 cs1).expand =
      (MinistryWorkflow.step1QuestionSet d2 cs2).expand := by
  have hdom : pyUpper (MinistryWorkflow.domainAttr d1) =
      pyUpper (MinistryWorkflow.domainAttr d2) := by
    unfold MinistryWorkflow.domainAttr
    rw [pyUpper_pyTitle, pyUpper_pyTitle]
    exact pyUpper_eq_of_pyLower_eq hd
  have hcs : cs1.map pyUpper = cs2.map pyUpper := by
    have h1 : cs1.map pyUpper = (cs1.map pyLower).map pyUpper := by
      rw [List.map_map]
      exact List.map_congr_left (fun s _ => (pyUpper_pyLower s).symm)
    have h2 : cs2.map pyUpper = (cs2.map pyLower).map pyUpper := by
      rw [List.map_map]
      exact List.map_congr_left (fun s _ => (pyUpper_pyLower s).symm)
    rw [h1, h2, hc]
  have hqs : MinistryWorkflow.step1QuestionSet d1 cs1 =
      MinistryWorkflow.step1QuestionSet d2 cs2 := by
    have e1 : MinistryWorkflow.step1QuestionSet d1 cs1 =
        { word_sets := [(pyOf "domain", [pyUpper (MinistryWorkflow.domainAttr d1)]),
                        (pyOf "country", cs1.map pyUpper)],
          template := organization_question.template,
          response_model := pyOf "OrganizationModel",
          max_questions := 0 } := rfl
    have e2 : MinistryWorkflow.step1QuestionSet d2 cs2 =
        { word_sets := [(pyOf "domain", [pyUpper (MinistryWorkflow.domainAttr d2)]),
                        (pyOf "country", cs2.map pyUpper)],
          template := organization_question.template,
          response_model := pyOf "OrganizationModel",
          max_questions := 0 } := rfl
    rw [e1, e2, hdom, hcs]
  exact ⟨hqs, congrArg QuestionSet.expand hqs⟩

/-- Witness for C10: `"  energy "` with `["albania"]` and `"ENERGY"` with
`["ALBANIA"]` build the same stage-1 QuestionSet. -/
theorem case_insensitive_stage1_witness :
    MinistryWorkflow.step1QuestionSet (pyOf "  energy ") [pyOf "albania"] =
      MinistryWorkflow.step1QuestionSet (pyOf "ENERGY") [pyOf "ALBANIA"] :=
  (case_insensitive_stage1 (pyOf "  energy ") (pyOf "ENERGY")
    [pyOf "albania"] [pyOf "ALBANIA"] (by decide) (by decide)).1
